import Mathlib

/-!
Verification development for the file-ingestion validation script
(`File_Validation.py`): a pandas pipeline that loads a source and a target
CSV, normalizes column names, diffs the schemas, compares row and column
counts, computes the source rows missing from the target via an indicator
left merge, counts duplicated target rows, and writes either a populated
five-check discrepancy report or a single no-discrepancy record.

The script is embedded shallowly: dataframes become `DF` (ordered column
names plus row-major cells over an abstract scalar type with decidable
equality), Python sets of column names become `Finset String` together with
an explicit enumeration function modelling the interpreter's unspecified
set-iteration order, and the whole guarded pipeline (lines 21-102) becomes
`run`, which returns the artifacts written in order plus the diagnostic
logged when an exception aborts the run.
-/

namespace FileValidation

/-- Lowercase one character, modelling Python `str.lower` on the basic Latin
range (source line 39 applies `c.lower()` to every column name). -/
def pyLowerChar (c : Char) : Char :=
  if 65 ≤ c.toNat ∧ c.toNat ≤ 90 then Char.ofNat (c.toNat + 32) else c

/-- Replace a space by an underscore; `c.replace(" ", "_")` with its
single-character pattern rewrites exactly the space characters. -/
def pyUnderscoreChar (c : Char) : Char := if c = ' ' then '_' else c

/-- Column-name standardization of source lines 39-40:
`c.lower().replace(" ", "_")`. -/
def normalizeName (s : String) : String :=
  String.mk ((s.data.map pyLowerChar).map pyUnderscoreChar)

/-- In-memory table as delivered by `pandas.read_csv`: ordered column names
plus row-major cell values. Scalars stay abstract with decidable equality. -/
structure DF (α : Type) where
  cols : List String
  rows : List (List α)
deriving DecidableEq

variable {α : Type}

/-- Source lines 39-40 overwrite `df.columns` with the standardized names. -/
def normalizeDF (df : DF α) : DF α := { df with cols := df.cols.map normalizeName }

/-- Column names of a dataframe as a finite set (`set(df.columns)`,
source lines 43-44). -/
def colSet (df : DF α) : Finset String := df.cols.toFinset

/-- Set underlying `common_columns` (source line 46). -/
def common_set (src tgt : DF α) : Finset String := colSet src ∩ colSet tgt

/-- Set underlying `missing_in_target` (source line 47). -/
def missing_in_target_set (src tgt : DF α) : Finset String := colSet src \ colSet tgt

/-- Set underlying `missing_in_source` (source line 48). -/
def missing_in_source_set (src tgt : DF α) : Finset String := colSet tgt \ colSet src

/-- Python's `list(someSetOfStrings)` materializes a set in an iteration
order the language does not specify (it depends on string hashing). The
conversion is modelled as an enumeration function applied to a carrier list
holding the set's elements. -/
abbrev SetEnum := List String → List String

/-- Contract of an enumeration standing in for Python set iteration: it
lists each element of the carrier's underlying set exactly once. The order
produced is deliberately unconstrained. -/
def ValidEnum (e : SetEnum) : Prop :=
  ∀ l : List String, (e l).Nodup ∧ (e l).toFinset = l.toFinset

/-- Concrete admissible enumeration used to run the model on closed inputs. -/
def dedupEnum : SetEnum := fun l => l.dedup

/-- A second admissible enumeration; Python's hash randomization makes the
realized order differ from run to run. -/
def revEnum : SetEnum := fun l => l.dedup.reverse

/-- Carrier list of `source_cols & target_cols`. -/
def interCols (src tgt : DF α) : List String :=
  src.cols.filter (fun c => decide (c ∈ tgt.cols))

/-- Carrier list of `source_cols - target_cols`. -/
def diffCols (src tgt : DF α) : List String :=
  src.cols.filter (fun c => decide (c ∉ tgt.cols))

/-- Source line 46: `common_columns = list(source_cols & target_cols)`. -/
def common_columns (e : SetEnum) (src tgt : DF α) : List String :=
  e (interCols src tgt)

/-- Source line 47: `missing_in_target = list(source_cols - target_cols)`. -/
def missing_in_target (e : SetEnum) (src tgt : DF α) : List String :=
  e (diffCols src tgt)

/-- Source line 48: `missing_in_source = list(target_cols - source_cols)`. -/
def missing_in_source (e : SetEnum) (src tgt : DF α) : List String :=
  e (diffCols tgt src)

/-- Source line 54: `schema_mismatch = missing_in_target + missing_in_source`. -/
def schema_mismatch (e : SetEnum) (src tgt : DF α) : List String :=
  missing_in_target e src tgt ++ missing_in_source e src tgt

/-- Source line 59: `source_row_count != target_row_count`. -/
def row_count_mismatch (src tgt : DF α) : Bool :=
  decide (src.rows.length ≠ tgt.rows.length)

/-- Source line 62: `len(source_df.columns) != len(target_df.columns)`. -/
def column_count_mismatch (src tgt : DF α) : Bool :=
  decide (src.cols.length ≠ tgt.cols.length)

/-- Row of `df[sel]`: the cells of `r` at the selected labels, each looked up
through the dataframe's column list. -/
def projRow (cols sel : List String) (r : List α) : List (Option α) :=
  sel.map (fun c => r[cols.indexOf c]?)

/-- Row list of `df[sel]`: every row projected onto the selection, row order
kept. -/
def projDF (df : DF α) (sel : List String) : List (List (Option α)) :=
  df.rows.map (projRow df.cols sel)

/-- Indicator column `_merge` of the pandas merge. -/
inductive MergeTag where
  | both
  | leftOnly
deriving DecidableEq

/-- Model of `pd.merge(left, right, how='left', indicator=True)` in the shape
the script uses it (every column of both operands is a join key): each left
row pairs with every value-equal right row, an unmatched left row appears
once tagged `left_only`, and left order is preserved. -/
def pdMergeLeft [DecidableEq α] (l r : List (List (Option α))) :
    List (List (Option α) × MergeTag) :=
  l.flatMap (fun x =>
    match r.filter (fun y => decide (y = x)) with
    | [] => [(x, MergeTag.leftOnly)]
    | y :: ys => (y :: ys).map (fun _ => (x, MergeTag.both)))

/-- Source lines 65-66: keep the `left_only` rows of the indicator merge on
the common columns and drop the `_merge` column. -/
def rows_missing_in_target (e : SetEnum) [DecidableEq α] (src tgt : DF α) :
    List (List (Option α)) :=
  ((pdMergeLeft (projDF src (common_columns e src tgt))
        (projDF tgt (common_columns e src tgt))).filter
      (fun p => decide (p.2 = MergeTag.leftOnly))).map Prod.fst

/-- Source line 67: `missing_count = len(rows_missing_in_target)`. -/
def missing_count (e : SetEnum) [DecidableEq α] (src tgt : DF α) : Nat :=
  (rows_missing_in_target e src tgt).length

/-- Number of rows of `tgt` agreeing with `r` on every selected column. -/
def keyCount [DecidableEq α] (tgt : DF α) (sel : List String) (r : List α) : Nat :=
  tgt.rows.countP (fun r2 => decide (projRow tgt.cols sel r2 = projRow tgt.cols sel r))

/-- Source line 70: `target_df.duplicated(subset=common_columns, keep=False)`
marks every row whose key tuple occurs more than once in the frame. -/
def duplicated_flags [DecidableEq α] (tgt : DF α) (sel : List String) : List Bool :=
  tgt.rows.map (fun r => decide (2 ≤ keyCount tgt sel r))

/-- Source line 70: `.sum()` over the boolean mask. -/
def duplicate_count [DecidableEq α] (tgt : DF α) (sel : List String) : Nat :=
  (duplicated_flags tgt sel).count true

/-- Source line 71: `has_duplicates = duplicate_count > 0`. -/
def has_duplicates [DecidableEq α] (tgt : DF α) (sel : List String) : Bool :=
  decide (0 < duplicate_count tgt sel)

/-- Source line 83: the Discrepancy cell of the Schema Mismatch check,
`", ".join(schema_mismatch)` when the list is non-empty. -/
def schema_field (e : SetEnum) (src tgt : DF α) : String :=
  if (schema_mismatch e src tgt).isEmpty then "No Issue"
  else String.intercalate ", " (schema_mismatch e src tgt)

/-- Source line 79: the guard choosing the populated discrepancy report. -/
def discrepancy_flag (e : SetEnum) [DecidableEq α] (src tgt : DF α) : Bool :=
  !(schema_mismatch e src tgt).isEmpty || row_count_mismatch src tgt ||
    column_count_mismatch src tgt || decide (0 < missing_count e src tgt) ||
    has_duplicates tgt (common_columns e src tgt)

/-- Source lines 82-88: the five-check table, one (Validation, Discrepancy)
pair per check. -/
def discrepancy_data (e : SetEnum) [DecidableEq α] (src tgt : DF α) :
    List (String × String) :=
  let srcRows := src.rows.length
  let tgtRows := tgt.rows.length
  let srcColsN := src.cols.length
  let tgtColsN := tgt.cols.length
  let mc := missing_count e src tgt
  let dc := duplicate_count tgt (common_columns e src tgt)
  [("Schema Mismatch", schema_field e src tgt),
   ("Row Count Mismatch",
      if row_count_mismatch src tgt then s!"Source: {srcRows}, Target: {tgtRows}"
      else "No Issue"),
   ("Column Count Mismatch",
      if column_count_mismatch src tgt then s!"Source: {srcColsN}, Target: {tgtColsN}"
      else "No Issue"),
   ("Source Minus Target",
      if 0 < mc then s!"Rows missing in Target: {mc}" else "No Issue"),
   ("Duplicate Rows in Target",
      if has_duplicates tgt (common_columns e src tgt) then s!"Duplicate count: {dc}"
      else "No Issue")]

/-- Files the script can write: the target materialized from the source
(line 31), the mismatch records (line 75), the discrepancy report (line 91)
and the no-discrepancy record (line 96). -/
inductive Artifact (α : Type) where
  | copiedTarget (df : DF α)
  | mismatchRecords (rows : List (List (Option α)))
  | discrepancyReport (table : List (String × String))
  | noDiscrepancyReport
deriving DecidableEq

/-- Diagnostic logged by the `FileNotFoundError` handler (source line 100). -/
def fnfDiag : String := "File Not Found"

/-- Diagnostic logged by the catch-all handler (source line 102). -/
def unexpectedDiag : String := "Unexpected error"

/-- Comparison-and-report phase (source lines 38-97) on the two normalized
dataframes. `pre` carries the artifacts already written by the loading phase.
A merge with an empty join-key set makes `pd.merge` raise `MergeError`
(line 65), caught by the catch-all handler (line 101); otherwise the
mismatch records are written when any row is missing (lines 74-76) and
exactly one report variant is written (lines 79-97). -/
def runBody (e : SetEnum) [DecidableEq α] (pre : List (Artifact α)) (src tgt : DF α) :
    List (Artifact α) × Option String :=
  if (common_columns e src tgt).isEmpty then
    (pre, some unexpectedDiag)
  else if discrepancy_flag e src tgt then
    (pre ++
        (if 0 < missing_count e src tgt then
          [Artifact.mismatchRecords (rows_missing_in_target e src tgt)]
        else []) ++
        [Artifact.discrepancyReport (discrepancy_data e src tgt)], none)
  else
    (pre ++
        (if 0 < missing_count e src tgt then
          [Artifact.mismatchRecords (rows_missing_in_target e src tgt)]
        else []) ++
        [Artifact.noDiscrepancyReport], none)

/-- Whole-script model (source lines 21-102). `sf` and `tf` are the source
and target files (`none` means the file is absent); CSV round-tripping is
assumed lossless, so a target materialized from the source (lines 30-35)
reloads as the source dataframe. The result lists the artifacts written, in
write order, paired with the diagnostic of the single logged error when an
exception aborts the run: a missing source raises `FileNotFoundError`
(line 23), logged by its handler (line 100). -/
def run (e : SetEnum) [DecidableEq α] (sf tf : Option (DF α)) :
    List (Artifact α) × Option String :=
  match sf with
  | none => ([], some fnfDiag)
  | some src0 =>
    match tf with
    | none =>
      runBody e [Artifact.copiedTarget src0] (normalizeDF src0) (normalizeDF src0)
    | some tgt0 =>
      runBody e [] (normalizeDF src0) (normalizeDF tgt0)

/-- Report-variant artifacts: the populated discrepancy report or the
no-discrepancy record. -/
def isReport : Artifact α → Bool
  | Artifact.discrepancyReport _ => true
  | Artifact.noDiscrepancyReport => true
  | _ => false

/-- Output artifacts of the reconciliation proper: everything but the target
file materialized by the loader step. -/
def isOutput : Artifact α → Bool
  | Artifact.copiedTarget _ => false
  | _ => true

/-- Normalized dataframe pair the comparison actually runs on: the target
falls back to a copy of the source when its file is absent (lines 30-35). -/
def effectivePair (sf tf : Option (DF α)) : Option (DF α × DF α) :=
  match sf, tf with
  | none, _ => none
  | some s, none => some (normalizeDF s, normalizeDF s)
  | some s, some t => some (normalizeDF s, normalizeDF t)

/-- Discrepancy condition as the spec states it: some schema-diff set
non-empty, or diverging row counts, or diverging column counts, or missing
rows, or duplicates in target. -/
def DiscrepancyExists (e : SetEnum) [DecidableEq α] (src tgt : DF α) : Prop :=
  (missing_in_target_set src tgt ∪ missing_in_source_set src tgt).Nonempty ∨
    src.rows.length ≠ tgt.rows.length ∨ src.cols.length ≠ tgt.cols.length ∨
    rows_missing_in_target e src tgt ≠ [] ∨
    has_duplicates tgt (common_columns e src tgt) = true

/-- Lexicographic comparison of character lists by code point, total and
kernel-computable. -/
def lexLe : List Char → List Char → Bool
  | [], _ => true
  | _ :: _, [] => false
  | a :: as, b :: bs => if a = b then lexLe as bs else decide (a.toNat < b.toNat)

/-- Lexicographic order on strings by code point. -/
def strLeB (a b : String) : Bool := lexLe a.data b.data

/-- Modelled from the spec: "No ordering guarantee on the resulting sets'
iteration order is required, but output must be deterministic for reporting
(sort before rendering to text)" — the Schema Mismatch cell with the missing
column names sorted lexicographically before joining. The script has no
counterpart of the sort. -/
def specSortedSchemaField (src tgt : DF α) : String :=
  let names := (diffCols src tgt ++ diffCols tgt src).dedup
  if names.isEmpty then "No Issue"
  else String.intercalate ", " (names.insertionSort (fun a b => strLeB a b = true))

/-! ### Normalization lemmas -/

theorem toNat_ofNat_of_valid {n : Nat} (h : n.isValidChar) : (Char.ofNat n).toNat = n := by
  unfold Char.ofNat
  rw [dif_pos h]
  rfl

theorem pyLowerChar_idem (c : Char) : pyLowerChar (pyLowerChar c) = pyLowerChar c := by
  by_cases h : 65 ≤ c.toNat ∧ c.toNat ≤ 90
  · have hv : (c.toNat + 32).isValidChar := Or.inl (by omega)
    have ht : (Char.ofNat (c.toNat + 32)).toNat = c.toNat + 32 := toNat_ofNat_of_valid hv
    have h1 : pyLowerChar c = Char.ofNat (c.toNat + 32) := by
      simp only [pyLowerChar, if_pos h]
    have h2 : ¬(65 ≤ (Char.ofNat (c.toNat + 32)).toNat ∧
        (Char.ofNat (c.toNat + 32)).toNat ≤ 90) := by
      rw [ht]
      omega
    rw [h1]
    simp only [pyLowerChar, if_neg h2]
  · have h1 : pyLowerChar c = c := by simp only [pyLowerChar, if_neg h]
    rw [h1, h1]

theorem normChar_idem (c : Char) :
    pyUnderscoreChar (pyLowerChar (pyUnderscoreChar (pyLowerChar c))) =
      pyUnderscoreChar (pyLowerChar c) := by
  by_cases hsp : pyLowerChar c = ' '
  · rw [hsp]
    decide
  · have hg : pyUnderscoreChar (pyLowerChar c) = pyLowerChar c := by
      simp only [pyUnderscoreChar, if_neg hsp]
    rw [hg, pyLowerChar_idem, hg]

theorem normalizeName_idem (s : String) :
    normalizeName (normalizeName s) = normalizeName s := by
  unfold normalizeName
  refine congrArg String.mk ?_
  show ((((s.data.map pyLowerChar).map pyUnderscoreChar).map pyLowerChar).map
      pyUnderscoreChar) = (s.data.map pyLowerChar).map pyUnderscoreChar
  simp only [List.map_map]
  exact List.map_inj_left.mpr (fun c _ => normChar_idem c)

/-! ### Enumeration lemmas -/

theorem dedupEnum_valid : ValidEnum dedupEnum :=
  fun l => ⟨l.nodup_dedup, List.toFinset.ext (fun _ => List.mem_dedup)⟩

theorem revEnum_valid : ValidEnum revEnum :=
  fun l =>
    ⟨List.nodup_reverse.mpr l.nodup_dedup,
      List.toFinset_reverse.trans (List.toFinset.ext (fun _ => List.mem_dedup))⟩

theorem mem_of_validEnum {e : SetEnum} (he : ValidEnum e) (l : List String) (a : String) :
    a ∈ e l ↔ a ∈ l := by
  rw [← List.mem_toFinset, (he l).2, List.mem_toFinset]

theorem eq_nil_of_validEnum {e : SetEnum} (he : ValidEnum e) (l : List String) :
    e l = [] ↔ l.toFinset = ∅ := by
  rw [← (he l).2, List.toFinset_eq_empty_iff]

theorem interCols_toFinset (src tgt : DF α) :
    (interCols src tgt).toFinset = common_set src tgt := by
  ext a
  simp [interCols, common_set, colSet, List.mem_filter]

theorem diffCols_toFinset (src tgt : DF α) :
    (diffCols src tgt).toFinset = missing_in_target_set src tgt := by
  ext a
  simp [diffCols, missing_in_target_set, colSet, List.mem_filter]

theorem diffCols_toFinset' (src tgt : DF α) :
    (diffCols tgt src).toFinset = missing_in_source_set src tgt := by
  ext a
  simp [diffCols, missing_in_source_set, colSet, List.mem_filter]

theorem common_columns_isEmpty_iff {e : SetEnum} (he : ValidEnum e) (src tgt : DF α) :
    (common_columns e src tgt).isEmpty = true ↔ common_set src tgt = ∅ := by
  rw [List.isEmpty_iff, common_columns, eq_nil_of_validEnum he, interCols_toFinset]

theorem missing_in_target_eq_nil_iff {e : SetEnum} (he : ValidEnum e) (src tgt : DF α) :
    missing_in_target e src tgt = [] ↔ missing_in_target_set src tgt = ∅ := by
  rw [missing_in_target, eq_nil_of_validEnum he, diffCols_toFinset]

theorem missing_in_source_eq_nil_iff {e : SetEnum} (he : ValidEnum e) (src tgt : DF α) :
    missing_in_source e src tgt = [] ↔ missing_in_source_set src tgt = ∅ := by
  rw [missing_in_source, eq_nil_of_validEnum he, diffCols_toFinset']

theorem schema_mismatch_eq_nil_iff {e : SetEnum} (he : ValidEnum e) (src tgt : DF α) :
    schema_mismatch e src tgt = [] ↔
      missing_in_target_set src tgt ∪ missing_in_source_set src tgt = ∅ := by
  rw [schema_mismatch, List.append_eq_nil, missing_in_target_eq_nil_iff he,
    missing_in_source_eq_nil_iff he, Finset.union_eq_empty]

/-! ### Claim C7 -/

/-- C7: column-name normalization maps every name to its lowercase form with
spaces replaced by underscores (charwise), is a pure function, and is
idempotent on names and on whole column lists. -/
theorem claim_normalization_idempotent (df : DF α) :
    (∀ s : String,
        (normalizeName s).data = s.data.map (fun c => pyUnderscoreChar (pyLowerChar c))) ∧
      (∀ s : String, normalizeName (normalizeName s) = normalizeName s) ∧
      normalizeDF (normalizeDF df) = normalizeDF df := by
  refine ⟨fun s => by simp [normalizeName, List.map_map], normalizeName_idem, ?_⟩
  simp only [normalizeDF, List.map_map]
  refine congrArg (fun cs => DF.mk cs df.rows) ?_
  exact List.map_inj_left.mpr (fun c _ => normalizeName_idem c)

/-! ### Claim C4 -/

/-- C4: the three schema-diff sets are pairwise disjoint and their union is
the union of the two datasets' normalized column-name sets. -/
theorem claim_schema_diff_partition (A B : DF α) :
    (common_set (normalizeDF A) (normalizeDF B) ∪
          missing_in_target_set (normalizeDF A) (normalizeDF B) ∪
          missing_in_source_set (normalizeDF A) (normalizeDF B) =
        colSet (normalizeDF A) ∪ colSet (normalizeDF B)) ∧
      Disjoint (common_set (normalizeDF A) (normalizeDF B))
        (missing_in_target_set (normalizeDF A) (normalizeDF B)) ∧
      Disjoint (common_set (normalizeDF A) (normalizeDF B))
        (missing_in_source_set (normalizeDF A) (normalizeDF B)) ∧
      Disjoint (missing_in_target_set (normalizeDF A) (normalizeDF B))
        (missing_in_source_set (normalizeDF A) (normalizeDF B)) := by
  refine ⟨?_, ?_, ?_, ?_⟩
  · ext a
    simp only [common_set, missing_in_target_set, missing_in_source_set, Finset.mem_union,
      Finset.mem_inter, Finset.mem_sdiff]
    tauto
  · rw [Finset.disjoint_left]
    intro a ha hb
    simp only [common_set, missing_in_target_set, Finset.mem_inter, Finset.mem_sdiff] at ha hb
    tauto
  · rw [Finset.disjoint_left]
    intro a ha hb
    simp only [common_set, missing_in_source_set, Finset.mem_inter, Finset.mem_sdiff] at ha hb
    tauto
  · rw [Finset.disjoint_left]
    intro a ha hb
    simp only [missing_in_target_set, missing_in_source_set, Finset.mem_sdiff] at ha hb
    tauto

/-! ### Left-anti-join characterization (claim C2) -/

theorem pdMergeLeft_leftOnly [DecidableEq α] (l r : List (List (Option α))) :
    ((pdMergeLeft l r).filter (fun p => decide (p.2 = MergeTag.leftOnly))).map Prod.fst
      = l.filter (fun x => decide (x ∉ r)) := by
  induction l with
  | nil => rfl
  | cons x l ih =>
    simp only [pdMergeLeft, List.flatMap_cons, List.filter_append, List.map_append] at ih ⊢
    rw [ih]
    cases hms : r.filter (fun y => decide (y = x)) with
    | nil =>
      have hx : x ∉ r := by
        intro hmem
        have h := List.filter_eq_nil_iff.mp hms x hmem
        simp at h
      simp only [hms]
      simp [List.filter_cons, hx]
    | cons y ys =>
      have hy : y ∈ r.filter (fun y2 => decide (y2 = x)) := by
        rw [hms]
        exact List.mem_cons_self _ _
      have h2 := List.mem_filter.mp hy
      have hx : x ∈ r := (of_decide_eq_true h2.2) ▸ h2.1
      simp only [hms]
      simp [List.filter_cons, List.filter_map, Function.comp, hx]

/-- C2: over the common columns, the merge's `left_only` rows are exactly the
source rows whose projected tuple matches no target row's projected tuple,
kept with multiplicity and in source row order. -/
theorem claim_missing_rows_left_anti (e : SetEnum) [DecidableEq α] (src tgt : DF α)
    (_hne : common_columns e src tgt ≠ []) :
    rows_missing_in_target e src tgt =
        (projDF src (common_columns e src tgt)).filter
          (fun x => decide (x ∉ projDF tgt (common_columns e src tgt))) ∧
      ∀ r : List α, src.rows = [r, r] → tgt.rows = [] →
        rows_missing_in_target e src tgt =
          [projRow src.cols (common_columns e src tgt) r,
            projRow src.cols (common_columns e src tgt) r] := by
  constructor
  · exact pdMergeLeft_leftOnly _ _
  · intro r hsrc htgt
    rw [rows_missing_in_target, pdMergeLeft_leftOnly, projDF, projDF, hsrc, htgt]
    simp

/-! ### Duplicate-count machinery (claims C3, C9) -/

theorem duplicate_count_eq_countP [DecidableEq α] (tgt : DF α) (sel : List String) :
    duplicate_count tgt sel = tgt.rows.countP (fun r => decide (2 ≤ keyCount tgt sel r)) := by
  rw [duplicate_count, duplicated_flags, List.count_eq_countP, List.countP_map]
  apply List.countP_congr
  intro r _
  simp

theorem one_le_keyCount_of_mem [DecidableEq α] {tgt : DF α} {sel : List String}
    {r : List α} (h : r ∈ tgt.rows) : 1 ≤ keyCount tgt sel r := by
  rw [keyCount]
  have : 0 < tgt.rows.countP
      (fun r2 => decide (projRow tgt.cols sel r2 = projRow tgt.cols sel r)) :=
    List.countP_pos_iff.mpr ⟨r, h, by simp⟩
  omega

theorem keyCount_congr [DecidableEq α] {tgt : DF α} {sel : List String} {x r : List α}
    (h : projRow tgt.cols sel x = projRow tgt.cols sel r) :
    keyCount tgt sel x = keyCount tgt sel r := by
  unfold keyCount
  apply List.countP_congr
  intro y _
  simp only [decide_eq_true_eq]
  rw [h]

theorem two_le_duplicate_count [DecidableEq α] {tgt : DF α} {sel : List String}
    (h : 0 < duplicate_count tgt sel) : 2 ≤ duplicate_count tgt sel := by
  rw [duplicate_count_eq_countP] at h ⊢
  obtain ⟨r, hr, hp⟩ := List.countP_pos_iff.mp h
  have hk : 2 ≤ keyCount tgt sel r := of_decide_eq_true hp
  have hmono : tgt.rows.countP
        (fun y => decide (projRow tgt.cols sel y = projRow tgt.cols sel r)) ≤
      tgt.rows.countP (fun y => decide (2 ≤ keyCount tgt sel y)) := by
    apply List.countP_mono_left
    intro y _ hpy
    have hpy' : projRow tgt.cols sel y = projRow tgt.cols sel r := of_decide_eq_true hpy
    exact decide_eq_true (by rw [keyCount_congr hpy']; exact hk)
  have hkc : 2 ≤ tgt.rows.countP
      (fun y => decide (projRow tgt.cols sel y = projRow tgt.cols sel r)) := hk
  omega

/-! ### Claim C9 -/

/-- C9: the reported duplicate count is never exactly one, and duplicates are
flagged exactly when the count reaches two: every member of a duplicate group
is counted. -/
theorem claim_duplicate_count_never_one [DecidableEq α] (tgt : DF α) (sel : List String)
    (_hsel : sel ≠ []) :
    duplicate_count tgt sel ≠ 1 ∧
      (has_duplicates tgt sel = true ↔ 2 ≤ duplicate_count tgt sel) := by
  constructor
  · intro h1
    have h2 : 2 ≤ duplicate_count tgt sel := two_le_duplicate_count (by omega)
    omega
  · rw [has_duplicates, decide_eq_true_eq]
    constructor
    · exact fun h => two_le_duplicate_count h
    · omega

/-- Closed witness for C9 at a concrete dataframe. -/
theorem claim_duplicate_count_never_one_witness :
    (["c"] : List String) ≠ [] ∧
      (duplicate_count (DF.mk ["c"] [[1], [1], [2]] : DF Nat) ["c"] ≠ 1 ∧
        (has_duplicates (DF.mk ["c"] [[1], [1], [2]] : DF Nat) ["c"] = true ↔
          2 ≤ duplicate_count (DF.mk ["c"] [[1], [1], [2]] : DF Nat) ["c"])) :=
  ⟨by decide, claim_duplicate_count_never_one _ _ (by decide)⟩

/-! ### Claim C3 -/

/-- C3: `duplicated(keep=False).sum()` counts every target row whose
common-column tuple occurs more than once — equivalently all rows except
those in singleton groups — with `has_duplicates` exactly when the count is
positive; on rows `[[a], [a], [b]]` with `a ≠ b` the count is 2. -/
theorem claim_detect_duplicates [DecidableEq α] (tgt : DF α) (sel : List String)
    (_hsel : sel ≠ []) :
    duplicate_count tgt sel = tgt.rows.countP (fun r => decide (2 ≤ keyCount tgt sel r)) ∧
      duplicate_count tgt sel =
        tgt.rows.length - tgt.rows.countP (fun r => decide (keyCount tgt sel r = 1)) ∧
      (has_duplicates tgt sel = true ↔ 0 < duplicate_count tgt sel) ∧
      ∀ a b : α, a ≠ b →
        duplicate_count (DF.mk ["c"] [[a], [a], [b]]) ["c"] = 2 := by
  refine ⟨duplicate_count_eq_countP tgt sel, ?_, ?_, ?_⟩
  · rw [duplicate_count_eq_countP]
    have hsplit := List.length_eq_countP_add_countP
      (p := fun r => decide (2 ≤ keyCount tgt sel r)) (l := tgt.rows)
    have hcong : tgt.rows.countP
          (fun r => decide (¬decide (2 ≤ keyCount tgt sel r) = true)) =
        tgt.rows.countP (fun r => decide (keyCount tgt sel r = 1)) := by
      apply List.countP_congr
      intro r hr
      have h1 : 1 ≤ keyCount tgt sel r := one_le_keyCount_of_mem hr
      simp only [decide_eq_true_eq]
      omega
    omega
  · rw [has_duplicates, decide_eq_true_eq]
  · intro a b hab
    have hba : b ≠ a := Ne.symm hab
    have hpr : ∀ x : α, projRow ["c"] ["c"] [x] = [some x] := fun x => rfl
    have hka : keyCount (DF.mk ["c"] [[a], [a], [b]]) ["c"] [a] = 2 := by
      simp [keyCount, hpr, List.countP_cons, hba]
    have hkb : keyCount (DF.mk ["c"] [[a], [a], [b]]) ["c"] [b] = 1 := by
      simp [keyCount, hpr, List.countP_cons, hab]
    rw [duplicate_count_eq_countP]
    simp [List.countP_cons, hka, hkb]

/-! ### Claim C10 -/

/-- C10: when neither dataset has duplicate normalized column names, a
column-count mismatch forces a non-empty schema mismatch, so the
column-count check can never be the only failing check. -/
theorem claim_colcount_mismatch_implies_schema (src tgt : DF α)
    (h1 : (normalizeDF src).cols.Nodup) (h2 : (normalizeDF tgt).cols.Nodup)
    (h3 : column_count_mismatch (normalizeDF src) (normalizeDF tgt) = true) :
    (missing_in_target_set (normalizeDF src) (normalizeDF tgt) ∪
        missing_in_source_set (normalizeDF src) (normalizeDF tgt)).Nonempty := by
  rw [column_count_mismatch, decide_eq_true_eq] at h3
  rw [Finset.nonempty_iff_ne_empty]
  intro hemp
  rw [Finset.union_eq_empty] at hemp
  obtain ⟨hA, hB⟩ := hemp
  rw [missing_in_target_set, Finset.sdiff_eq_empty_iff_subset] at hA
  rw [missing_in_source_set, Finset.sdiff_eq_empty_iff_subset] at hB
  have heq : colSet (normalizeDF src) = colSet (normalizeDF tgt) :=
    Finset.Subset.antisymm hA hB
  apply h3
  have hc1 : (colSet (normalizeDF src)).card = (normalizeDF src).cols.length :=
    List.toFinset_card_of_nodup h1
  have hc2 : (colSet (normalizeDF tgt)).card = (normalizeDF tgt).cols.length :=
    List.toFinset_card_of_nodup h2
  rw [← hc1, ← hc2, heq]

/-- Closed witness for C10 at concrete dataframes. -/
theorem claim_colcount_mismatch_implies_schema_witness :
    (normalizeDF (DF.mk ["a", "b"] [] : DF Nat)).cols.Nodup ∧
      (normalizeDF (DF.mk ["a"] [] : DF Nat)).cols.Nodup ∧
      column_count_mismatch (normalizeDF (DF.mk ["a", "b"] [] : DF Nat))
          (normalizeDF (DF.mk ["a"] [] : DF Nat)) = true ∧
      (missing_in_target_set (normalizeDF (DF.mk ["a", "b"] [] : DF Nat))
          (normalizeDF (DF.mk ["a"] [] : DF Nat)) ∪
        missing_in_source_set (normalizeDF (DF.mk ["a", "b"] [] : DF Nat))
          (normalizeDF (DF.mk ["a"] [] : DF Nat))).Nonempty :=
  ⟨by decide, by decide, by decide,
    claim_colcount_mismatch_implies_schema _ _ (by decide) (by decide) (by decide)⟩

/-- Closed witness for C2 at a concrete dataframe pair. -/
theorem claim_missing_rows_left_anti_witness :
    common_columns dedupEnum (DF.mk ["c"] [[1], [1]] : DF Nat)
        (DF.mk ["c"] ([] : List (List Nat))) ≠ [] ∧
      (rows_missing_in_target dedupEnum (DF.mk ["c"] [[1], [1]] : DF Nat)
            (DF.mk ["c"] ([] : List (List Nat))) =
          (projDF (DF.mk ["c"] [[1], [1]] : DF Nat)
              (common_columns dedupEnum (DF.mk ["c"] [[1], [1]] : DF Nat)
                (DF.mk ["c"] ([] : List (List Nat))))).filter
            (fun x => decide (x ∉ projDF (DF.mk ["c"] ([] : List (List Nat)))
              (common_columns dedupEnum (DF.mk ["c"] [[1], [1]] : DF Nat)
                (DF.mk ["c"] ([] : List (List Nat)))))) ∧
        ∀ r : List Nat, (DF.mk ["c"] [[1], [1]] : DF Nat).rows = [r, r] →
          (DF.mk ["c"] ([] : List (List Nat))).rows = [] →
          rows_missing_in_target dedupEnum (DF.mk ["c"] [[1], [1]] : DF Nat)
              (DF.mk ["c"] ([] : List (List Nat))) =
            [projRow ["c"] (common_columns dedupEnum (DF.mk ["c"] [[1], [1]] : DF Nat)
                (DF.mk ["c"] ([] : List (List Nat)))) r,
              projRow ["c"] (common_columns dedupEnum (DF.mk ["c"] [[1], [1]] : DF Nat)
                (DF.mk ["c"] ([] : List (List Nat)))) r]) :=
  ⟨by decide, claim_missing_rows_left_anti dedupEnum _ _ (by decide)⟩

/-- Closed witness for C3 at a concrete dataframe. -/
theorem claim_detect_duplicates_witness :
    (["c"] : List String) ≠ [] ∧
      (duplicate_count (DF.mk ["c"] ([] : List (List Nat))) ["c"] =
          List.countP
            (fun r => decide (2 ≤ keyCount (DF.mk ["c"] ([] : List (List Nat))) ["c"] r)) [] ∧
        duplicate_count (DF.mk ["c"] ([] : List (List Nat))) ["c"] =
          0 - List.countP
            (fun r => decide (keyCount (DF.mk ["c"] ([] : List (List Nat))) ["c"] r = 1)) [] ∧
        (has_duplicates (DF.mk ["c"] ([] : List (List Nat))) ["c"] = true ↔
          0 < duplicate_count (DF.mk ["c"] ([] : List (List Nat))) ["c"]) ∧
        ∀ a b : Nat, a ≠ b →
          duplicate_count (DF.mk ["c"] [[a], [a], [b]]) ["c"] = 2) :=
  ⟨by decide, claim_detect_duplicates _ _ (by decide)⟩

/-! ### Report-variant decision (claims C1, C8, C5) -/

theorem discrepancy_flag_iff {e : SetEnum} [DecidableEq α] (he : ValidEnum e)
    (src tgt : DF α) :
    discrepancy_flag e src tgt = true ↔ DiscrepancyExists e src tgt := by
  have h1 : (!(schema_mismatch e src tgt).isEmpty) = true ↔
      (missing_in_target_set src tgt ∪ missing_in_source_set src tgt).Nonempty := by
    constructor
    · intro hb
      rw [Finset.nonempty_iff_ne_empty]
      intro hset
      have hnil : schema_mismatch e src tgt = [] :=
        (schema_mismatch_eq_nil_iff he src tgt).mpr hset
      rw [hnil] at hb
      simp at hb
    · intro hne
      rw [Finset.nonempty_iff_ne_empty] at hne
      by_contra hb
      have hisEmpty : (schema_mismatch e src tgt).isEmpty = true := by
        cases hh : (schema_mismatch e src tgt).isEmpty
        · rw [hh] at hb
          simp at hb
        · rfl
      exact hne ((schema_mismatch_eq_nil_iff he src tgt).mp (List.isEmpty_iff.mp hisEmpty))
  have h2 : row_count_mismatch src tgt = true ↔ src.rows.length ≠ tgt.rows.length := by
    simp [row_count_mismatch]
  have h3 : column_count_mismatch src tgt = true ↔ src.cols.length ≠ tgt.cols.length := by
    simp [column_count_mismatch]
  have h4 : decide (0 < missing_count e src tgt) = true ↔
      rows_missing_in_target e src tgt ≠ [] := by
    simp [missing_count, List.length_pos]
  rw [discrepancy_flag, DiscrepancyExists]
  simp only [Bool.or_eq_true]
  rw [h1, h2, h3, h4]
  simp only [or_assoc]

theorem noReport_not_mem_mis [DecidableEq α] (c : Prop) [Decidable c]
    (m : List (List (Option α))) (a : Artifact α) (ha : isReport a = true) :
    a ∉ (if c then [Artifact.mismatchRecords m] else []) := by
  split
  · intro hmem
    rw [List.mem_singleton] at hmem
    rw [hmem] at ha
    simp [isReport] at ha
  · simp

theorem countP_isReport_mis [DecidableEq α] (c : Prop) [Decidable c]
    (m : List (List (Option α))) :
    (if c then [Artifact.mismatchRecords (α := α) m] else []).countP isReport = 0 := by
  split <;> simp [isReport]

theorem runBody_ok {e : SetEnum} [DecidableEq α] (pre : List (Artifact α)) (src tgt : DF α)
    (hpre : ∀ a ∈ pre, isReport a = false)
    (hok : (runBody e pre src tgt).2 = none) :
    ((runBody e pre src tgt).1.countP isReport = 1) ∧
      (Artifact.discrepancyReport (discrepancy_data e src tgt) ∈ (runBody e pre src tgt).1 ↔
        discrepancy_flag e src tgt = true) ∧
      ((Artifact.noDiscrepancyReport : Artifact α) ∈ (runBody e pre src tgt).1 ↔
        ¬discrepancy_flag e src tgt = true) := by
  have hnopre : ∀ a : Artifact α, isReport a = true → a ∉ pre := by
    intro a ha hmem
    rw [hpre a hmem] at ha
    exact Bool.false_ne_true ha
  rw [runBody] at hok ⊢
  by_cases hce : (common_columns e src tgt).isEmpty = true
  · rw [if_pos hce] at hok
    exact absurd hok (by simp)
  · rw [if_neg hce] at hok ⊢
    have hpre0 : pre.countP isReport = 0 :=
      List.countP_eq_zero.mpr (fun a ha => by simp [hpre a ha])
    cases hflag : discrepancy_flag e src tgt with
    | true =>
      simp only [hflag, eq_self_iff_true, if_true]
      refine ⟨?_, ?_, ?_⟩
      · rw [List.countP_append, List.countP_append, hpre0, countP_isReport_mis]
        simp [isReport, List.countP_cons]
      · simp [List.mem_append]
      · constructor
        · intro hmem
          rcases List.mem_append.mp hmem with hmem2 | hmem2
          · rcases List.mem_append.mp hmem2 with hmem3 | hmem3
            · exact absurd hmem3 (hnopre _ rfl)
            · exact absurd hmem3 (noReport_not_mem_mis _ _ _ rfl)
          · rw [List.mem_singleton] at hmem2
            exact Artifact.noConfusion hmem2
        · intro hcon
          exact absurd trivial hcon
    | false =>
      simp only [hflag, Bool.false_eq_true, if_false]
      refine ⟨?_, ?_, ?_⟩
      · rw [List.countP_append, List.countP_append, hpre0, countP_isReport_mis]
        simp [isReport, List.countP_cons]
      · constructor
        · intro hmem
          rcases List.mem_append.mp hmem with hmem2 | hmem2
          · rcases List.mem_append.mp hmem2 with hmem3 | hmem3
            · exact absurd hmem3 (hnopre _ rfl)
            · exact absurd hmem3 (noReport_not_mem_mis _ _ _ rfl)
          · rw [List.mem_singleton] at hmem2
            exact Artifact.noConfusion hmem2
        · intro hcon
          exact hcon.elim
      · simp [List.mem_append]

/-! ### Claim C1 -/

/-- C1: a successful run writes exactly one report artifact: the populated
five-check report exactly when some check fails — a schema-diff set
non-empty, or row counts differ, or column counts differ, or missing rows
exist, or duplicates were detected — and the single no-discrepancy record
otherwise; the variants are mutually exclusive. -/
theorem claim_report_variants {e : SetEnum} [DecidableEq α] (he : ValidEnum e)
    (sf tf : Option (DF α)) (s t : DF α)
    (hp : effectivePair sf tf = some (s, t))
    (hok : (run e sf tf).2 = none) :
    ((run e sf tf).1.countP isReport = 1) ∧
      (Artifact.discrepancyReport (discrepancy_data e s t) ∈ (run e sf tf).1 ↔
        DiscrepancyExists e s t) ∧
      ((Artifact.noDiscrepancyReport : Artifact α) ∈ (run e sf tf).1 ↔
        ¬DiscrepancyExists e s t) := by
  cases sf with
  | none => exact absurd hok (by simp [run, fnfDiag])
  | some src0 =>
    cases tf with
    | none =>
      rw [effectivePair] at hp
      rw [Option.some.injEq, Prod.mk.injEq] at hp
      obtain ⟨hs, ht⟩ := hp
      rw [run] at hok ⊢
      subst hs
      subst ht
      have hbody := runBody_ok [Artifact.copiedTarget src0] (normalizeDF src0)
        (normalizeDF src0)
        (fun a ha => by
          rw [List.mem_singleton] at ha
          rw [ha]
          rfl)
        hok
      rw [discrepancy_flag_iff he] at hbody
      exact hbody
    | some tgt0 =>
      rw [effectivePair] at hp
      rw [Option.some.injEq, Prod.mk.injEq] at hp
      obtain ⟨hs, ht⟩ := hp
      rw [run] at hok ⊢
      subst hs
      subst ht
      have hbody := runBody_ok [] (normalizeDF src0) (normalizeDF tgt0)
        (fun a ha => absurd ha (List.not_mem_nil a)) hok
      rw [discrepancy_flag_iff he] at hbody
      exact hbody

/-- Closed witness for C1 on a pair of identical one-column files. -/
theorem claim_report_variants_witness :
    ValidEnum dedupEnum ∧
      effectivePair (some (DF.mk ["c"] [[1]] : DF Nat)) (some (DF.mk ["c"] [[1]])) =
        some (DF.mk ["c"] [[1]], DF.mk ["c"] [[1]]) ∧
      (run dedupEnum (some (DF.mk ["c"] [[1]] : DF Nat)) (some (DF.mk ["c"] [[1]]))).2 =
        none ∧
      (((run dedupEnum (some (DF.mk ["c"] [[1]] : DF Nat))
              (some (DF.mk ["c"] [[1]]))).1.countP isReport = 1) ∧
        (Artifact.discrepancyReport
              (discrepancy_data dedupEnum (DF.mk ["c"] [[1]] : DF Nat) (DF.mk ["c"] [[1]])) ∈
            (run dedupEnum (some (DF.mk ["c"] [[1]] : DF Nat)) (some (DF.mk ["c"] [[1]]))).1 ↔
          DiscrepancyExists dedupEnum (DF.mk ["c"] [[1]] : DF Nat) (DF.mk ["c"] [[1]])) ∧
        ((Artifact.noDiscrepancyReport : Artifact Nat) ∈
            (run dedupEnum (some (DF.mk ["c"] [[1]] : DF Nat)) (some (DF.mk ["c"] [[1]]))).1 ↔
          ¬DiscrepancyExists dedupEnum (DF.mk ["c"] [[1]] : DF Nat) (DF.mk ["c"] [[1]]))) :=
  ⟨dedupEnum_valid, by decide, by decide,
    claim_report_variants dedupEnum_valid _ _ _ _ (by decide) (by decide)⟩

/-! ### Claim C8 -/

/-- C8: a run that fails during loading or comparison writes none of the
reconciliation output artifacts — mismatch records, discrepancy report, or
no-discrepancy record — and emits a single diagnostic naming the failure
kind. -/
theorem claim_failed_run_no_outputs {e : SetEnum} [DecidableEq α]
    (sf tf : Option (DF α)) (m : String)
    (hfail : (run e sf tf).2 = some m) :
    ((run e sf tf).1.countP isOutput = 0) ∧ (m = fnfDiag ∨ m = unexpectedDiag) := by
  cases sf with
  | none =>
    rw [run] at hfail ⊢
    refine ⟨rfl, Or.inl ?_⟩
    exact (Option.some.injEq _ _ ▸ hfail).symm
  | some src0 =>
    have hbody : ∀ (pre : List (Artifact α)) (src tgt : DF α),
        (∀ a ∈ pre, isOutput a = false) →
        (runBody e pre src tgt).2 = some m →
        ((runBody e pre src tgt).1.countP isOutput = 0) ∧
          (m = fnfDiag ∨ m = unexpectedDiag) := by
      intro pre src tgt hpre hfb
      rw [runBody] at hfb ⊢
      by_cases hce : (common_columns e src tgt).isEmpty = true
      · rw [if_pos hce] at hfb ⊢
        refine ⟨List.countP_eq_zero.mpr (fun a ha => by simp [hpre a ha]), Or.inr ?_⟩
        exact ((Option.some.injEq _ _).mp hfb).symm
      · rw [if_neg hce] at hfb
        cases hflag : discrepancy_flag e src tgt with
        | true => rw [hflag] at hfb; simp at hfb
        | false => rw [hflag] at hfb; simp at hfb
    cases tf with
    | none =>
      rw [run] at hfail ⊢
      exact hbody [Artifact.copiedTarget src0] (normalizeDF src0) (normalizeDF src0)
        (fun a ha => by rw [List.mem_singleton] at ha; rw [ha]; rfl) hfail
    | some tgt0 =>
      rw [run] at hfail ⊢
      exact hbody [] (normalizeDF src0) (normalizeDF tgt0)
        (fun a ha => absurd ha (List.not_mem_nil a)) hfail

/-- Closed witness for C8: a missing source file aborts with the
file-not-found diagnostic and no artifacts. -/
theorem claim_failed_run_no_outputs_witness :
    (run dedupEnum (none : Option (DF Nat)) none).2 = some fnfDiag ∧
      ((run dedupEnum (none : Option (DF Nat)) none).1.countP isOutput = 0 ∧
        (fnfDiag = fnfDiag ∨ fnfDiag = unexpectedDiag)) :=
  ⟨rfl, claim_failed_run_no_outputs none none fnfDiag rfl⟩

/-! ### Claim C5 -/

/-- C5 counterexample: on datasets sharing no column name the run does not
complete — `pd.merge` raises, the catch-all handler logs the unexpected
error, and no report of any kind is produced — refuting the claim that the
zero-key join is treated as matching all rows and the reconciliation still
emits its report. -/
theorem claim_empty_common_completes_cex :
    (run dedupEnum (some (DF.mk ["a"] [["x"]] : DF String))
          (some (DF.mk ["b"] [["y"]]))).2 = some unexpectedDiag ∧
      ¬(run dedupEnum (some (DF.mk ["a"] [["x"]] : DF String))
          (some (DF.mk ["b"] [["y"]]))).2 = none ∧
      (run dedupEnum (some (DF.mk ["a"] [["x"]] : DF String))
          (some (DF.mk ["b"] [["y"]]))).1 = [] := by
  exact ⟨rfl, by decide, rfl⟩

/-- C5 as amended: whenever the normalized column sets are disjoint, the run
aborts through the exception handler with the unexpected-error diagnostic
and writes no reconciliation output artifact. -/
theorem claim_empty_common_aborts {e : SetEnum} [DecidableEq α] (he : ValidEnum e)
    (s0 t0 : DF α)
    (hdis : common_set (normalizeDF s0) (normalizeDF t0) = ∅) :
    (run e (some s0) (some t0)).2 = some unexpectedDiag ∧
      (run e (some s0) (some t0)).1.countP isOutput = 0 := by
  have hce : (common_columns e (normalizeDF s0) (normalizeDF t0)).isEmpty = true :=
    (common_columns_isEmpty_iff he _ _).mpr hdis
  rw [run, runBody, if_pos hce]
  exact ⟨rfl, rfl⟩

/-- Closed witness for the amended C5. -/
theorem claim_empty_common_aborts_witness :
    ValidEnum dedupEnum ∧
      common_set (normalizeDF (DF.mk ["a"] [["x"]] : DF String))
          (normalizeDF (DF.mk ["b"] [["y"]])) = ∅ ∧
      ((run dedupEnum (some (DF.mk ["a"] [["x"]] : DF String))
            (some (DF.mk ["b"] [["y"]]))).2 = some unexpectedDiag ∧
        (run dedupEnum (some (DF.mk ["a"] [["x"]] : DF String))
            (some (DF.mk ["b"] [["y"]]))).1.countP isOutput = 0) :=
  ⟨dedupEnum_valid, by decide,
    claim_empty_common_aborts dedupEnum_valid _ _ (by decide)⟩

/-! ### Claim C6: rendering order and determinism -/

/-- C6 counterexample: the script joins the missing column names in set
iteration order without sorting. Under one admissible iteration order the
rendered Schema Mismatch cell differs from the sorted rendering the spec
prescribes, and two admissible iteration orders (two hash seeds, hence two
runs) render different report text on identical inputs. -/
theorem claim_sorted_render_cex :
    ValidEnum dedupEnum ∧
      schema_field dedupEnum (DF.mk ["b", "a", "k"] ([] : List (List Nat)))
          (DF.mk ["k"] []) ≠
        specSortedSchemaField (DF.mk ["b", "a", "k"] ([] : List (List Nat)))
          (DF.mk ["k"] []) ∧
      ValidEnum revEnum ∧
      schema_field dedupEnum (DF.mk ["b", "a", "k"] ([] : List (List Nat)))
          (DF.mk ["k"] []) ≠
        schema_field revEnum (DF.mk ["b", "a", "k"] ([] : List (List Nat)))
          (DF.mk ["k"] []) :=
  ⟨dedupEnum_valid, by decide, revEnum_valid, by decide⟩

theorem map_eq_map_iff_of_memIff {β : Type} {sel1 sel2 : List String}
    (hmem : ∀ c, c ∈ sel1 ↔ c ∈ sel2) (f g : String → β) :
    sel1.map f = sel1.map g ↔ sel2.map f = sel2.map g := by
  rw [List.map_inj_left, List.map_inj_left]
  constructor
  · intro h c hc
    exact h c ((hmem c).mpr hc)
  · intro h c hc
    exact h c ((hmem c).mp hc)

theorem projRow_eq_iff_of_memIff {sel1 sel2 : List String}
    (hmem : ∀ c, c ∈ sel1 ↔ c ∈ sel2) (cols1 cols2 : List String) (x y : List α) :
    (projRow cols1 sel1 x = projRow cols2 sel1 y) ↔
      (projRow cols1 sel2 x = projRow cols2 sel2 y) := by
  unfold projRow
  exact map_eq_map_iff_of_memIff hmem _ _

theorem keyCount_sel_congr [DecidableEq α] (tgt : DF α) {sel1 sel2 : List String}
    (hmem : ∀ c, c ∈ sel1 ↔ c ∈ sel2) (r : List α) :
    keyCount tgt sel1 r = keyCount tgt sel2 r := by
  unfold keyCount
  apply List.countP_congr
  intro y _
  simp only [decide_eq_true_eq]
  exact projRow_eq_iff_of_memIff hmem _ _ _ _

theorem duplicate_count_sel_congr [DecidableEq α] (tgt : DF α) {sel1 sel2 : List String}
    (hmem : ∀ c, c ∈ sel1 ↔ c ∈ sel2) :
    duplicate_count tgt sel1 = duplicate_count tgt sel2 := by
  rw [duplicate_count_eq_countP, duplicate_count_eq_countP]
  apply List.countP_congr
  intro r _
  simp only [decide_eq_true_eq]
  rw [keyCount_sel_congr tgt hmem r]

theorem missing_count_eq_countP (e : SetEnum) [DecidableEq α] (src tgt : DF α) :
    missing_count e src tgt = src.rows.countP
      (fun rs => decide (projRow src.cols (common_columns e src tgt) rs ∉
        projDF tgt (common_columns e src tgt))) := by
  rw [missing_count, rows_missing_in_target, pdMergeLeft_leftOnly,
    ← List.countP_eq_length_filter]
  simp only [projDF]
  rw [List.countP_map]
  rfl

theorem mem_projDF_iff {sel1 sel2 : List String} (hmem : ∀ c, c ∈ sel1 ↔ c ∈ sel2)
    (tgt : DF α) (cols : List String) (x : List α) :
    projRow cols sel1 x ∈ projDF tgt sel1 ↔ projRow cols sel2 x ∈ projDF tgt sel2 := by
  rw [projDF, projDF, List.mem_map, List.mem_map]
  constructor
  · rintro ⟨rt, hrt, heq⟩
    exact ⟨rt, hrt, (projRow_eq_iff_of_memIff hmem _ _ _ _).mp heq⟩
  · rintro ⟨rt, hrt, heq⟩
    exact ⟨rt, hrt, (projRow_eq_iff_of_memIff hmem _ _ _ _).mpr heq⟩

theorem common_columns_memIff {e1 e2 : SetEnum} (h1 : ValidEnum e1) (h2 : ValidEnum e2)
    (src tgt : DF α) :
    ∀ c, c ∈ common_columns e1 src tgt ↔ c ∈ common_columns e2 src tgt := by
  intro c
  rw [common_columns, common_columns, mem_of_validEnum h1, mem_of_validEnum h2]

theorem missing_count_enum_congr {e1 e2 : SetEnum} [DecidableEq α]
    (h1 : ValidEnum e1) (h2 : ValidEnum e2) (src tgt : DF α) :
    missing_count e1 src tgt = missing_count e2 src tgt := by
  have hmem := common_columns_memIff h1 h2 src tgt
  rw [missing_count_eq_countP, missing_count_eq_countP]
  apply List.countP_congr
  intro rs _
  simp only [decide_eq_true_eq]
  exact not_congr (mem_projDF_iff hmem tgt src.cols rs)

theorem schema_mismatch_isEmpty_congr {e1 e2 : SetEnum} (h1 : ValidEnum e1)
    (h2 : ValidEnum e2) (src tgt : DF α) :
    (schema_mismatch e1 src tgt).isEmpty = (schema_mismatch e2 src tgt).isEmpty := by
  rw [Bool.eq_iff_iff, List.isEmpty_iff, List.isEmpty_iff,
    schema_mismatch_eq_nil_iff h1, schema_mismatch_eq_nil_iff h2]

theorem discrepancy_flag_enum_congr {e1 e2 : SetEnum} [DecidableEq α]
    (h1 : ValidEnum e1) (h2 : ValidEnum e2) (src tgt : DF α) :
    discrepancy_flag e1 src tgt = discrepancy_flag e2 src tgt := by
  have hmem := common_columns_memIff h1 h2 src tgt
  have hdc : has_duplicates tgt (common_columns e1 src tgt) =
      has_duplicates tgt (common_columns e2 src tgt) := by
    unfold has_duplicates
    rw [duplicate_count_sel_congr tgt hmem]
  rw [discrepancy_flag, discrepancy_flag, schema_mismatch_isEmpty_congr h1 h2,
    missing_count_enum_congr h1 h2, hdc]

/-- C6 as amended: the outcome is deterministic only up to the interpreter's
set-iteration order. Any two admissible enumerations agree on the report
decision, the missing-row count (source row order is preserved either way),
the duplicate count, and the set of names in the Schema Mismatch cell — but
the cell's text joins the names in iteration order, unsorted, so its exact
text can differ between runs. -/
theorem claim_deterministic_up_to_enum {e1 e2 : SetEnum} [DecidableEq α]
    (h1 : ValidEnum e1) (h2 : ValidEnum e2) (src tgt : DF α) :
    discrepancy_flag e1 src tgt = discrepancy_flag e2 src tgt ∧
      missing_count e1 src tgt = missing_count e2 src tgt ∧
      duplicate_count tgt (common_columns e1 src tgt) =
        duplicate_count tgt (common_columns e2 src tgt) ∧
      (schema_mismatch e1 src tgt).toFinset = (schema_mismatch e2 src tgt).toFinset := by
  refine ⟨discrepancy_flag_enum_congr h1 h2 src tgt,
    missing_count_enum_congr h1 h2 src tgt,
    duplicate_count_sel_congr tgt (common_columns_memIff h1 h2 src tgt), ?_⟩
  rw [schema_mismatch, schema_mismatch, List.toFinset_append, List.toFinset_append,
    missing_in_target, missing_in_source, missing_in_target, missing_in_source,
    (h1 _).2, (h2 _).2, (h1 _).2, (h2 _).2]

/-- Closed witness for the amended C6 on a concrete dataframe pair under two
admissible enumerations. -/
theorem claim_deterministic_up_to_enum_witness :
    ValidEnum dedupEnum ∧ ValidEnum revEnum ∧
      (discrepancy_flag dedupEnum (DF.mk ["b", "a", "k"] ([[1, 2, 3]] : List (List Nat)))
            (DF.mk ["k"] [[3]]) =
          discrepancy_flag revEnum (DF.mk ["b", "a", "k"] ([[1, 2, 3]] : List (List Nat)))
            (DF.mk ["k"] [[3]]) ∧
        missing_count dedupEnum (DF.mk ["b", "a", "k"] ([[1, 2, 3]] : List (List Nat)))
            (DF.mk ["k"] [[3]]) =
          missing_count revEnum (DF.mk ["b", "a", "k"] ([[1, 2, 3]] : List (List Nat)))
            (DF.mk ["k"] [[3]]) ∧
        duplicate_count (DF.mk ["k"] [[3]])
            (common_columns dedupEnum (DF.mk ["b", "a", "k"] ([[1, 2, 3]] : List (List Nat)))
              (DF.mk ["k"] [[3]])) =
          duplicate_count (DF.mk ["k"] [[3]])
            (common_columns revEnum (DF.mk ["b", "a", "k"] ([[1, 2, 3]] : List (List Nat)))
              (DF.mk ["k"] [[3]])) ∧
        (schema_mismatch dedupEnum (DF.mk ["b", "a", "k"] ([[1, 2, 3]] : List (List Nat)))
              (DF.mk ["k"] [[3]])).toFinset =
          (schema_mismatch revEnum (DF.mk ["b", "a", "k"] ([[1, 2, 3]] : List (List Nat)))
              (DF.mk ["k"] [[3]])).toFinset) :=
  ⟨dedupEnum_valid, revEnum_valid,
    claim_deterministic_up_to_enum dedupEnum_valid revEnum_valid _ _⟩

end FileValidation
